import Mathlib

/-!
Shallow embedding of the schematic layout pipeline orchestrator
(`LayoutPipelineSolver` from `LayoutPipelineSolver.ts`) together with its
layout validator, and proofs of the specification claims about them.

Modelling conventions:

* String-keyed JS record objects used as per-phase maps are modelled as
  association lists.  An assignment `rec[k] = v` prepends `(k, v)` to the
  list, so the full write history is kept; `recordGet` returns the value of
  the latest write, which is what a JS property read observes.
* `performance.now()` is modelled by an externally supplied clock value (an
  integer timestamp) passed to every `step` call; iterated stepping takes a
  stream of timestamps.
* The four phase sub-solvers (decoupling-cap identification, chip
  partitioning, inner-partition packing, partition packing) are external
  collaborators excluded from the specified core.  They are modelled by
  scripted behaviours satisfying the incremental-solver contract: a scripted
  sub-solver either becomes `solved` after a fixed number of its own steps or
  becomes `failed` with a fixed error.  The orchestrator's completion hooks
  (`onSolved`) copy sub-solver outputs into orchestrator state; since those
  outputs are opaque here, the model records the exact order in which hooks
  fire (`hooksRun`) and in which sub-solvers are constructed
  (`constructedPhases`).
-/

/-- Latest-write read of a JS record modelled as an association list. -/
def recordGet {α : Type} (l : List (String × α)) (k : String) : Option α :=
  (l.find? (fun p => p.1 == k)).map (fun p => p.2)

/-- A JS record assignment `rec[k] = v`, keeping the write history. -/
def recordSet {α : Type} (l : List (String × α)) (k : String) (v : α) :
    List (String × α) :=
  (k, v) :: l

/-- Number of writes a key has received. -/
def countKey {α : Type} (l : List (String × α)) (k : String) : Nat :=
  l.countP (fun p => p.1 == k)

/-- Scripted behaviour of an external phase sub-solver: it either reaches
`solved` after `n` of its own steps, or reaches `failed` (with the given
error) after `n` of its own steps. -/
inductive SubBehavior : Type where
  | solvesAfter (n : Nat)
  | failsAfter (n : Nat) (err : String)

/-- A phase sub-solver: its scripted behaviour plus how many steps it has
taken so far. -/
structure SubSolver where
  behavior : SubBehavior
  stepsTaken : Nat

def SubSolver.solved (s : SubSolver) : Bool :=
  match s.behavior with
  | .solvesAfter n => n ≤ s.stepsTaken
  | .failsAfter _ _ => false

def SubSolver.failed (s : SubSolver) : Bool :=
  match s.behavior with
  | .solvesAfter _ => false
  | .failsAfter n _ => n ≤ s.stepsTaken

def SubSolver.error (s : SubSolver) : Option String :=
  match s.behavior with
  | .solvesAfter _ => none
  | .failsAfter n e => if n ≤ s.stepsTaken then some e else none

/-- One `step()` of a sub-solver: a no-op once `solved` or `failed`
(incremental-solver contract), otherwise one unit of work. -/
def SubSolver.step (s : SubSolver) : SubSolver :=
  if s.solved || s.failed then s else { s with stepsTaken := s.stepsTaken + 1 }

/-- The `solverName` fields of the source's `pipelineDef` table, in order.
The constructor parameters and `onSolved` hooks of the table entries touch
only the opaque sub-solver types, so they are modelled abstractly: sub-solver
construction is scripted by an environment, and hook invocations are recorded
in `hooksRun`. -/
def pipelineDef : List String :=
  ["identifyDecouplingCapsSolver", "chipPartitionsSolver",
   "packInnerPartitionsSolver", "partitionPackingSolver"]

/-- `MAX_ITERATIONS` as set in the source constructor (`1e6`). -/
def MAX_ITERATIONS : Nat := 1000000

/-- Orchestrator state: the fields of `LayoutPipelineSolver` relevant to the
pipeline state machine, plus the two audit trails `hooksRun` and
`constructedPhases` that record hook invocations and sub-solver
constructions (standing in for the opaque per-phase output assignments and
solver-slot assignments of the source). -/
structure LayoutPipelineSolver where
  currentPipelineStepIndex : Nat := 0
  activeSubSolver : Option SubSolver := none
  solved : Bool := false
  failed : Bool := false
  error : Option String := none
  iterations : Nat := 0
  startTimeOfPhase : List (String × Int) := []
  endTimeOfPhase : List (String × Int) := []
  timeSpentOnPhase : List (String × Int) := []
  firstIterationOfPhase : List (String × Nat) := []
  hooksRun : List Nat := []
  constructedPhases : List Nat := []

/-- The freshly constructed orchestrator: empty phase records, phase index
zero, no active sub-solver. -/
def mkSolver : LayoutPipelineSolver := {}

/-- The body of the source's `_step`, with `env i` scripting the behaviour of
the sub-solver the pipeline table constructs for phase `i`, and `now` the
value `performance.now()` returns during this call. -/
def LayoutPipelineSolver._step (env : Nat → SubBehavior) (now : Int)
    (self : LayoutPipelineSolver) : LayoutPipelineSolver :=
  match pipelineDef[self.currentPipelineStepIndex]? with
  | none => { self with solved := true }
  | some solverName =>
    match self.activeSubSolver with
    | some sub0 =>
      let sub := sub0.step
      if sub.solved then
        let withEnd := { self with
          endTimeOfPhase := recordSet self.endTimeOfPhase solverName now }
        let withTime := { withEnd with
          timeSpentOnPhase := recordSet withEnd.timeSpentOnPhase solverName
            ((recordGet withEnd.endTimeOfPhase solverName).getD 0 -
              (recordGet withEnd.startTimeOfPhase solverName).getD 0) }
        let withHook := { withTime with
          hooksRun := withTime.currentPipelineStepIndex :: withTime.hooksRun }
        { withHook with
          activeSubSolver := none,
          currentPipelineStepIndex := withHook.currentPipelineStepIndex + 1 }
      else if sub.failed then
        { self with error := sub.error, failed := true, activeSubSolver := none }
      else
        { self with activeSubSolver := some sub }
    | none =>
      let withSlot := { self with
        activeSubSolver := some { behavior := env self.currentPipelineStepIndex,
                                  stepsTaken := 0 },
        constructedPhases :=
          self.currentPipelineStepIndex :: self.constructedPhases }
      let withTime := { withSlot with
        timeSpentOnPhase := recordSet withSlot.timeSpentOnPhase solverName 0 }
      let withStart := { withTime with
        startTimeOfPhase := recordSet withTime.startTimeOfPhase solverName now }
      { withStart with
        firstIterationOfPhase :=
          recordSet withStart.firstIterationOfPhase solverName self.iterations }

/-- Modelled from the spec: `BaseSolver.step` (the base class is not among
the sources; spec sections 4.1 and 7 describe its contract).  A call is a
no-op once `solved` or `failed` is set; otherwise it increments the
iteration counter, transitions to `failed` with an IterationLimitExceeded
error once the bound is exceeded, and otherwise runs `_step`. -/
def LayoutPipelineSolver.step (env : Nat → SubBehavior) (now : Int)
    (self : LayoutPipelineSolver) : LayoutPipelineSolver :=
  if self.solved || self.failed then self
  else
    let bumped := { self with iterations := self.iterations + 1 }
    if MAX_ITERATIONS < bumped.iterations then
      { bumped with failed := true, error := some "IterationLimitExceeded" }
    else
      bumped._step env now

/-- `getCurrentPhase` of the source: the name of the phase at the current
index, or the sentinel `"none"` once the table is exhausted. -/
def LayoutPipelineSolver.getCurrentPhase (self : LayoutPipelineSolver) : String :=
  (pipelineDef[self.currentPipelineStepIndex]?).getD "none"

/-- `n` consecutive `step()` calls, the `k`-th observing timestamp `nows k`. -/
def LayoutPipelineSolver.stepN (env : Nat → SubBehavior) (nows : Nat → Int) :
    Nat → LayoutPipelineSolver → LayoutPipelineSolver
  | 0, s => s
  | n + 1, s => (LayoutPipelineSolver.stepN env nows n s).step env (nows n)

/-- Fuel-indexed unfolding of the source's `solveUntilPhase` loop
(`while (this.getCurrentPhase() !== phase) this.step()`).  `some s` means
the loop terminated (within `fuel` iterations) in state `s`; `none` means
it has not terminated within `fuel` iterations. -/
def LayoutPipelineSolver.solveUntilPhase (env : Nat → SubBehavior)
    (nows : Nat → Int) (fuel : Nat) (phase : String)
    (self : LayoutPipelineSolver) : Option LayoutPipelineSolver :=
  match fuel with
  | 0 => none
  | f + 1 =>
    if self.getCurrentPhase = phase then some self
    else
      LayoutPipelineSolver.solveUntilPhase env (fun n => nows (n + 1)) f phase
        (self.step env (nows 0))

/-! ### Concrete runs used by witnesses and counterexamples -/

/-- A concrete clock stream. -/
def nows0 : Nat → Int := fun n => n

/-- Environment in which every phase sub-solver solves after one step. -/
def envSolve : Nat → SubBehavior := fun _ => .solvesAfter 1

/-- Environment in which the first phase sub-solver fails after one step. -/
def envFail : Nat → SubBehavior := fun i =>
  if i = 0 then .failsAfter 1 "decoupling cap identification failed"
  else .solvesAfter 1

/-- A state ready to observe the first phase's sub-solver fail on the next
`step()`: phase 0 constructed, its sub-solver one step away from failure. -/
def subFailing : SubSolver :=
  { behavior := .failsAfter 1 "decoupling cap identification failed",
    stepsTaken := 0 }

def sBeforeFailure : LayoutPipelineSolver :=
  { currentPipelineStepIndex := 0, activeSubSolver := some subFailing,
    iterations := 1,
    timeSpentOnPhase := [("identifyDecouplingCapsSolver", 0)],
    startTimeOfPhase := [("identifyDecouplingCapsSolver", 0)],
    firstIterationOfPhase := [("identifyDecouplingCapsSolver", 1)],
    constructedPhases := [0] }

/-- The orchestrator state right after it observed the phase-0 failure. -/
def sFailed : LayoutPipelineSolver := sBeforeFailure.step envFail 1

/-! ### Basic step lemmas -/

theorem step_of_failed (env : Nat → SubBehavior) (now : Int)
    (s : LayoutPipelineSolver) (h : s.failed = true) : s.step env now = s := by
  simp [LayoutPipelineSolver.step, h]

theorem step_of_solved (env : Nat → SubBehavior) (now : Int)
    (s : LayoutPipelineSolver) (h : s.solved = true) : s.step env now = s := by
  simp [LayoutPipelineSolver.step, h]

theorem stepN_of_failed (env : Nat → SubBehavior) (nows : Nat → Int) (n : Nat)
    (s : LayoutPipelineSolver) (h : s.failed = true) : s.stepN env nows n = s := by
  induction n with
  | zero => rfl
  | succ n ih =>
    show (s.stepN env nows n).step env (nows n) = s
    rw [ih]
    exact step_of_failed env (nows n) s h

/-- Once the orchestrator is `failed` or `solved` while the current phase
differs from the target, the `solveUntilPhase` loop never terminates: each
`step()` is a no-op, so the loop condition stays true for every fuel. -/
theorem solveUntilPhase_stuck (env : Nat → SubBehavior) (phase : String)
    (s : LayoutPipelineSolver) (hstuck : s.failed = true ∨ s.solved = true)
    (hne : s.getCurrentPhase ≠ phase) :
    ∀ (fuel : Nat) (nows : Nat → Int),
      LayoutPipelineSolver.solveUntilPhase env nows fuel phase s = none := by
  intro fuel
  induction fuel with
  | zero => intro nows; rfl
  | succ f ih =>
    intro nows
    have hnoop : s.step env (nows 0) = s := by
      rcases hstuck with h | h
      · exact step_of_failed env (nows 0) s h
      · exact step_of_solved env (nows 0) s h
    show (if s.getCurrentPhase = phase then some s
      else LayoutPipelineSolver.solveUntilPhase env (fun n => nows (n + 1)) f phase
        (s.step env (nows 0))) = none
    rw [if_neg hne, hnoop]
    exact ih (fun n => nows (n + 1))

/-! ### Claim C9: terminal behaviour of `_step` and `getCurrentPhase` -/

/-- C9: once `currentPipelineStepIndex` exceeds the last entry of the
pipeline table, a step sets `solved = true` and changes nothing else, and
`getCurrentPhase()` returns the sentinel `"none"` (both before and after
that step); while the index is in range, `getCurrentPhase()` returns the
name of the phase at the current index. -/
theorem claim_C9 :
    (∀ (env : Nat → SubBehavior) (now : Int) (s : LayoutPipelineSolver),
      pipelineDef.length ≤ s.currentPipelineStepIndex →
        s._step env now = { s with solved := true } ∧
        s.getCurrentPhase = "none" ∧
        (s._step env now).getCurrentPhase = "none") ∧
    (∀ s : LayoutPipelineSolver,
      s.currentPipelineStepIndex < pipelineDef.length →
        pipelineDef[s.currentPipelineStepIndex]? = some s.getCurrentPhase) := by
  constructor
  · intro env now s h
    have hnone : pipelineDef[s.currentPipelineStepIndex]? = none :=
      List.getElem?_eq_none h
    refine ⟨?_, ?_, ?_⟩
    · simp [LayoutPipelineSolver._step, hnone]
    · simp [LayoutPipelineSolver.getCurrentPhase, hnone]
    · simp [LayoutPipelineSolver._step, LayoutPipelineSolver.getCurrentPhase, hnone]
  · intro s h
    have hv : pipelineDef[s.currentPipelineStepIndex]? =
        some pipelineDef[s.currentPipelineStepIndex] := List.getElem?_eq_getElem h
    simp [LayoutPipelineSolver.getCurrentPhase, hv]

def sIdx4 : LayoutPipelineSolver := { currentPipelineStepIndex := 4 }

def sIdx1 : LayoutPipelineSolver := { currentPipelineStepIndex := 1 }

theorem claim_C9_witness :
    (sIdx4._step envSolve 0 = { sIdx4 with solved := true } ∧
      sIdx4.getCurrentPhase = "none" ∧
      (sIdx4._step envSolve 0).getCurrentPhase = "none") ∧
    pipelineDef[sIdx1.currentPipelineStepIndex]? = some sIdx1.getCurrentPhase :=
  ⟨claim_C9.1 envSolve 0 sIdx4 (by decide), claim_C9.2 sIdx1 (by decide)⟩

/-! ### Claim C2: failure propagation is terminal -/

/-- C2: when a `step()` call observes the active sub-solver become `failed`,
the sub-solver's error is copied into the orchestrator's `error`, the
orchestrator's `failed` flag is set, the active sub-solver is cleared and the
phase index is not advanced (the result is exactly that structure update);
and once `failed`, any number of further `step()` calls changes no
orchestrator state (in particular no later phase's solver is constructed). -/
theorem claim_C2 :
    (∀ (env : Nat → SubBehavior) (now : Int) (s : LayoutPipelineSolver)
      (sub : SubSolver) (solverName : String),
      pipelineDef[s.currentPipelineStepIndex]? = some solverName →
      s.activeSubSolver = some sub →
      s.solved = false → s.failed = false →
      s.iterations < MAX_ITERATIONS →
      sub.step.solved = false → sub.step.failed = true →
      s.step env now = { s with
        iterations := s.iterations + 1,
        error := sub.step.error, failed := true, activeSubSolver := none }) ∧
    (∀ (env : Nat → SubBehavior) (nows : Nat → Int) (n : Nat)
      (s : LayoutPipelineSolver), s.failed = true → s.stepN env nows n = s) := by
  constructor
  · intro env now s sub solverName h1 h2 hs hf hit hsub1 hsub2
    have hb : ¬ (MAX_ITERATIONS < s.iterations + 1) := by omega
    simp [LayoutPipelineSolver.step, LayoutPipelineSolver._step, hs, hf, hb,
      h1, h2, hsub1, hsub2]
  · intro env nows n s h
    exact stepN_of_failed env nows n s h

theorem claim_C2_witness :
    sBeforeFailure.step envFail 1 = { sBeforeFailure with
        iterations := sBeforeFailure.iterations + 1,
        error := subFailing.step.error, failed := true, activeSubSolver := none } ∧
    sFailed.stepN envFail nows0 5 = sFailed :=
  ⟨claim_C2.1 envFail 1 sBeforeFailure subFailing "identifyDecouplingCapsSolver"
      rfl rfl rfl rfl (by decide) (by decide) (by decide),
    claim_C2.2 envFail nows0 5 sFailed (by decide)⟩

/-! ### Claim C1: `solveUntilPhase` termination -/

/-- Counterexample to C1: from the reachable state in which the phase-0
sub-solver has failed, `solveUntilPhase("chipPartitionsSolver")` never
terminates, for any amount of fuel: the loop only tests
`getCurrentPhase() !== phase`, and every further `step()` is a no-op. -/
theorem claim_C1_counterexample :
    sFailed.failed = true ∧
    ∀ fuel : Nat,
      LayoutPipelineSolver.solveUntilPhase envFail nows0 fuel
        "chipPartitionsSolver" sFailed = none :=
  ⟨by decide, fun fuel =>
    solveUntilPhase_stuck envFail "chipPartitionsSolver" sFailed
      (Or.inl (by decide)) (by decide) fuel nows0⟩

/-- C1 (amended): `solveUntilPhase(phaseName)` repeatedly invokes `step()`
and terminates exactly when `getCurrentPhase()` equals `phaseName`: a
terminating run ends in a state whose current phase is `phaseName`, and it
returns immediately when the current phase already matches; but the loop
does not test the solved/failed flags, so when the orchestrator is `failed`
(or `solved`) while `getCurrentPhase()` differs from `phaseName`, every
further `step()` is a no-op and the loop never terminates. -/
theorem claim_C1 :
    ∀ (env : Nat → SubBehavior) (nows : Nat → Int) (fuel : Nat) (phase : String)
      (s : LayoutPipelineSolver),
      (∀ s2, LayoutPipelineSolver.solveUntilPhase env nows fuel phase s = some s2 →
        s2.getCurrentPhase = phase) ∧
      (0 < fuel → s.getCurrentPhase = phase →
        LayoutPipelineSolver.solveUntilPhase env nows fuel phase s = some s) ∧
      ((s.failed = true ∨ s.solved = true) → s.getCurrentPhase ≠ phase →
        LayoutPipelineSolver.solveUntilPhase env nows fuel phase s = none) := by
  intro env nows fuel phase s
  refine ⟨?_, ?_, ?_⟩
  · induction fuel generalizing nows s with
    | zero =>
      intro s2 h
      exact absurd h (by simp [LayoutPipelineSolver.solveUntilPhase])
    | succ f ih =>
      intro s2 h
      by_cases hc : s.getCurrentPhase = phase
      · have hss : s = s2 := by
          simpa [LayoutPipelineSolver.solveUntilPhase, hc] using h
        rw [← hss]
        exact hc
      · have h2 : LayoutPipelineSolver.solveUntilPhase env (fun n => nows (n + 1))
            f phase (s.step env (nows 0)) = some s2 := by
          simpa [LayoutPipelineSolver.solveUntilPhase, hc] using h
        exact ih _ _ _ h2
  · intro hf hc
    cases fuel with
    | zero => omega
    | succ f => simp [LayoutPipelineSolver.solveUntilPhase, hc]
  · intro hstuck hne
    exact solveUntilPhase_stuck env phase s hstuck hne fuel nows

theorem claim_C1_witness :
    mkSolver.getCurrentPhase = "identifyDecouplingCapsSolver" ∧
    LayoutPipelineSolver.solveUntilPhase envSolve nows0 1
      "identifyDecouplingCapsSolver" mkSolver = some mkSolver ∧
    LayoutPipelineSolver.solveUntilPhase envFail nows0 9
      "chipPartitionsSolver" sFailed = none :=
  ⟨(claim_C1 envSolve nows0 1 "identifyDecouplingCapsSolver" mkSolver).1
      mkSolver rfl,
    (claim_C1 envSolve nows0 1 "identifyDecouplingCapsSolver" mkSolver).2.1
      (by decide) rfl,
    (claim_C1 envFail nows0 9 "chipPartitionsSolver" sFailed).2.2
      (Or.inl (by decide)) (by decide)⟩

/-! ### Association-list record lemmas -/

theorem recordGet_cons {α : Type} (k2 : String) (p : String × α)
    (l : List (String × α)) :
    recordGet (p :: l) k2 = if p.1 = k2 then some p.2 else recordGet l k2 := by
  by_cases h : p.1 = k2 <;> simp [recordGet, List.find?_cons, h]

theorem recordGet_cons_self {α : Type} (k : String) (v : α)
    (l : List (String × α)) : recordGet ((k, v) :: l) k = some v := by
  simp [recordGet_cons]

theorem recordGet_cons_ne {α : Type} (k k2 : String) (v : α)
    (l : List (String × α)) (h : k ≠ k2) :
    recordGet ((k, v) :: l) k2 = recordGet l k2 := by
  simp [recordGet_cons, h]

theorem countKey_cons {α : Type} (k2 : String) (p : String × α)
    (l : List (String × α)) :
    countKey (p :: l) k2 = countKey l k2 + if p.1 = k2 then 1 else 0 := by
  by_cases h : p.1 = k2 <;> simp [countKey, List.countP_cons, h]

theorem recordGet_isSome_of_countKey_pos {α : Type} (l : List (String × α))
    (k : String) (h : 0 < countKey l k) : ∃ v, recordGet l k = some v := by
  induction l with
  | nil => simp [countKey] at h
  | cons p l ih =>
    by_cases hk : p.1 = k
    · exact ⟨p.2, by simp [recordGet_cons, hk]⟩
    · have h2 : 0 < countKey l k := by
        simpa [countKey_cons, hk] using h
      obtain ⟨v, hv⟩ := ih h2
      exact ⟨v, by simp [recordGet_cons, hk, hv]⟩

theorem pipelineDef_nodup : pipelineDef.Nodup := by decide

/-! ### Characterisation of the six cases of a `step()` call -/

theorem step_eq_limitFailure (env : Nat → SubBehavior) (now : Int)
    (s : LayoutPipelineSolver) (hs : s.solved = false) (hf : s.failed = false)
    (hlim : MAX_ITERATIONS < s.iterations + 1) :
    s.step env now = { s with
      iterations := s.iterations + 1, failed := true,
      error := some "IterationLimitExceeded" } := by
  simp [LayoutPipelineSolver.step, hs, hf, hlim]

theorem step_eq_terminal (env : Nat → SubBehavior) (now : Int)
    (s : LayoutPipelineSolver) (hs : s.solved = false) (hf : s.failed = false)
    (hlim : ¬ MAX_ITERATIONS < s.iterations + 1)
    (hn : pipelineDef[s.currentPipelineStepIndex]? = none) :
    s.step env now = { s with iterations := s.iterations + 1, solved := true } := by
  simp [LayoutPipelineSolver.step, LayoutPipelineSolver._step, hs, hf, hlim, hn]

theorem step_eq_complete (env : Nat → SubBehavior) (now : Int)
    (s : LayoutPipelineSolver) (sub : SubSolver) (solverName : String)
    (hn : pipelineDef[s.currentPipelineStepIndex]? = some solverName)
    (ha : s.activeSubSolver = some sub)
    (hs : s.solved = false) (hf : s.failed = false)
    (hlim : ¬ MAX_ITERATIONS < s.iterations + 1)
    (hsub : sub.step.solved = true) :
    s.step env now = { s with
      iterations := s.iterations + 1,
      endTimeOfPhase := (solverName, now) :: s.endTimeOfPhase,
      timeSpentOnPhase := (solverName,
        now - (recordGet s.startTimeOfPhase solverName).getD 0) ::
          s.timeSpentOnPhase,
      hooksRun := s.currentPipelineStepIndex :: s.hooksRun,
      activeSubSolver := none,
      currentPipelineStepIndex := s.currentPipelineStepIndex + 1 } := by
  simp [LayoutPipelineSolver.step, LayoutPipelineSolver._step, hs, hf, hlim, hn,
    ha, hsub, recordSet, recordGet_cons_self]

theorem step_eq_subFailed (env : Nat → SubBehavior) (now : Int)
    (s : LayoutPipelineSolver) (sub : SubSolver) (solverName : String)
    (hn : pipelineDef[s.currentPipelineStepIndex]? = some solverName)
    (ha : s.activeSubSolver = some sub)
    (hs : s.solved = false) (hf : s.failed = false)
    (hlim : ¬ MAX_ITERATIONS < s.iterations + 1)
    (hsub1 : sub.step.solved = false) (hsub2 : sub.step.failed = true) :
    s.step env now = { s with
      iterations := s.iterations + 1,
      error := sub.step.error, failed := true, activeSubSolver := none } := by
  simp [LayoutPipelineSolver.step, LayoutPipelineSolver._step, hs, hf, hlim, hn,
    ha, hsub1, hsub2]

theorem step_eq_run (env : Nat → SubBehavior) (now : Int)
    (s : LayoutPipelineSolver) (sub : SubSolver) (solverName : String)
    (hn : pipelineDef[s.currentPipelineStepIndex]? = some solverName)
    (ha : s.activeSubSolver = some sub)
    (hs : s.solved = false) (hf : s.failed = false)
    (hlim : ¬ MAX_ITERATIONS < s.iterations + 1)
    (hsub1 : sub.step.solved = false) (hsub2 : sub.step.failed = false) :
    s.step env now = { s with
      iterations := s.iterations + 1, activeSubSolver := some sub.step } := by
  simp [LayoutPipelineSolver.step, LayoutPipelineSolver._step, hs, hf, hlim, hn,
    ha, hsub1, hsub2]

theorem step_eq_construct (env : Nat → SubBehavior) (now : Int)
    (s : LayoutPipelineSolver) (solverName : String)
    (hn : pipelineDef[s.currentPipelineStepIndex]? = some solverName)
    (ha : s.activeSubSolver = none)
    (hs : s.solved = false) (hf : s.failed = false)
    (hlim : ¬ MAX_ITERATIONS < s.iterations + 1) :
    s.step env now = { s with
      iterations := s.iterations + 1,
      activeSubSolver := some { behavior := env s.currentPipelineStepIndex,
                                stepsTaken := 0 },
      constructedPhases := s.currentPipelineStepIndex :: s.constructedPhases,
      timeSpentOnPhase := (solverName, 0) :: s.timeSpentOnPhase,
      startTimeOfPhase := (solverName, now) :: s.startTimeOfPhase,
      firstIterationOfPhase :=
        (solverName, s.iterations + 1) :: s.firstIterationOfPhase } := by
  simp [LayoutPipelineSolver.step, LayoutPipelineSolver._step, hs, hf, hlim, hn,
    ha, recordSet]

/-! ### Invariant of reachable orchestrator states -/

/-- Invariant tying per-phase record writes to pipeline progress: hooks of
exactly the phases before the current index have run, constructed phases
never exceed the current index, and the write counts of the four phase
records are determined by the construction/completion markers. -/
structure PipelineInv (s : LayoutPipelineSolver) : Prop where
  hooks_mem : ∀ j, j ∈ s.hooksRun ↔ j < s.currentPipelineStepIndex
  cons_le : ∀ j, j ∈ s.constructedPhases →
    j ≤ s.currentPipelineStepIndex ∧ j < pipelineDef.length
  active_cons : s.activeSubSolver.isSome = true →
    s.currentPipelineStepIndex ∈ s.constructedPhases
  idle_not_cons : s.activeSubSolver = none → s.failed = false →
    s.currentPipelineStepIndex ∉ s.constructedPhases
  start_count : ∀ i, (h : i < pipelineDef.length) →
    countKey s.startTimeOfPhase pipelineDef[i] =
      if i ∈ s.constructedPhases then 1 else 0
  firstIter_count : ∀ i, (h : i < pipelineDef.length) →
    countKey s.firstIterationOfPhase pipelineDef[i] =
      if i ∈ s.constructedPhases then 1 else 0
  end_count : ∀ i, (h : i < pipelineDef.length) →
    countKey s.endTimeOfPhase pipelineDef[i] =
      if i ∈ s.hooksRun then 1 else 0
  spent_count : ∀ i, (h : i < pipelineDef.length) →
    countKey s.timeSpentOnPhase pipelineDef[i] =
      (if i ∈ s.constructedPhases then 1 else 0) +
        (if i ∈ s.hooksRun then 1 else 0)
  elapsed : ∀ i, (h : i < pipelineDef.length) → i ∈ s.hooksRun →
    ∃ te ts, recordGet s.endTimeOfPhase pipelineDef[i] = some te ∧
      recordGet s.startTimeOfPhase pipelineDef[i] = some ts ∧
      recordGet s.timeSpentOnPhase pipelineDef[i] = some (te - ts)

theorem pipelineDef_getElem_ne (i j : Nat) (hi : i < pipelineDef.length)
    (hj : j < pipelineDef.length) (hne : i ≠ j) :
    pipelineDef[i] ≠ pipelineDef[j] :=
  fun hh => hne ((List.Nodup.getElem_inj_iff pipelineDef_nodup).mp hh)

theorem pipelineInv_mk : PipelineInv mkSolver := by
  refine ⟨?_, ?_, ?_, ?_, ?_, ?_, ?_, ?_, ?_⟩ <;>
    intros <;> simp_all [mkSolver, countKey]

theorem pipelineInv_step (env : Nat → SubBehavior) (now : Int)
    (s : LayoutPipelineSolver) (h : PipelineInv s) :
    PipelineInv (s.step env now) := by
  by_cases hs0 : s.solved = true
  · rw [step_of_solved env now s hs0]; exact h
  by_cases hf0 : s.failed = true
  · rw [step_of_failed env now s hf0]; exact h
  have hs : s.solved = false := by simpa using hs0
  have hf : s.failed = false := by simpa using hf0
  by_cases hlim : MAX_ITERATIONS < s.iterations + 1
  · rw [step_eq_limitFailure env now s hs hf hlim]
    refine ⟨h.hooks_mem, h.cons_le, h.active_cons, ?_, h.start_count,
      h.firstIter_count, h.end_count, h.spent_count, h.elapsed⟩
    intro _ hff
    exact absurd hff (by simp)
  cases hn : pipelineDef[s.currentPipelineStepIndex]? with
  | none =>
    rw [step_eq_terminal env now s hs hf hlim hn]
    exact ⟨h.hooks_mem, h.cons_le, h.active_cons, h.idle_not_cons,
      h.start_count, h.firstIter_count, h.end_count, h.spent_count, h.elapsed⟩
  | some solverName =>
    obtain ⟨hlen, hname⟩ := List.getElem?_eq_some.mp hn
    cases ha : s.activeSubSolver with
    | none =>
      rw [step_eq_construct env now s solverName hn ha hs hf hlim]
      have hnc : s.currentPipelineStepIndex ∉ s.constructedPhases :=
        h.idle_not_cons ha hf
      have hnh : s.currentPipelineStepIndex ∉ s.hooksRun := by
        rw [h.hooks_mem]; omega
      refine ⟨?_, ?_, ?_, ?_, ?_, ?_, ?_, ?_, ?_⟩
      · exact h.hooks_mem
      · intro j hj
        rcases List.mem_cons.mp hj with rfl | hj2
        · exact ⟨Nat.le_refl _, hlen⟩
        · exact h.cons_le j hj2
      · intro _
        exact List.mem_cons_self _ _
      · intro habs
        simp at habs
      · intro i hi
        rw [countKey_cons, h.start_count i hi]
        by_cases hio : i = s.currentPipelineStepIndex
        · subst hio
          simp [hname, hnc, List.mem_cons]
        · have hne2 : solverName ≠ pipelineDef[i] := by
            rw [← hname]
            exact pipelineDef_getElem_ne _ _ hlen hi (fun hh => hio hh.symm)
          simp [hne2, List.mem_cons, hio]
      · intro i hi
        rw [countKey_cons, h.firstIter_count i hi]
        by_cases hio : i = s.currentPipelineStepIndex
        · subst hio
          simp [hname, hnc, List.mem_cons]
        · have hne2 : solverName ≠ pipelineDef[i] := by
            rw [← hname]
            exact pipelineDef_getElem_ne _ _ hlen hi (fun hh => hio hh.symm)
          simp [hne2, List.mem_cons, hio]
      · exact h.end_count
      · intro i hi
        rw [countKey_cons, h.spent_count i hi]
        by_cases hio : i = s.currentPipelineStepIndex
        · subst hio
          simp [hname, hnc, hnh, List.mem_cons]
        · have hne2 : solverName ≠ pipelineDef[i] := by
            rw [← hname]
            exact pipelineDef_getElem_ne _ _ hlen hi (fun hh => hio hh.symm)
          simp [hne2, List.mem_cons, hio]
      · intro i hi hmem
        obtain ⟨te, ts, he, hst, hts⟩ := h.elapsed i hi hmem
        have hne2 : solverName ≠ pipelineDef[i] := by
          rw [← hname]
          refine pipelineDef_getElem_ne _ _ hlen hi ?_
          intro hii
          rw [h.hooks_mem] at hmem
          omega
        refine ⟨te, ts, he, ?_, ?_⟩
        · rw [recordGet_cons_ne _ _ _ _ hne2]; exact hst
        · rw [recordGet_cons_ne _ _ _ _ hne2]; exact hts
    | some sub =>
      by_cases h1 : sub.step.solved = true
      · rw [step_eq_complete env now s sub solverName hn ha hs hf hlim h1]
        have hconsmem : s.currentPipelineStepIndex ∈ s.constructedPhases :=
          h.active_cons (by rw [ha]; rfl)
        have hnh : s.currentPipelineStepIndex ∉ s.hooksRun := by
          rw [h.hooks_mem]; omega
        refine ⟨?_, ?_, ?_, ?_, ?_, ?_, ?_, ?_, ?_⟩
        · intro j
          simp only [List.mem_cons, h.hooks_mem j]
          omega
        · intro j hj
          have hc2 := h.cons_le j hj
          refine ⟨?_, hc2.2⟩
          show j ≤ s.currentPipelineStepIndex + 1
          omega
        · intro habs
          simp at habs
        · intro _ _ hmem2
          have hle2 : s.currentPipelineStepIndex + 1 ≤ s.currentPipelineStepIndex :=
            (h.cons_le _ hmem2).1
          omega
        · exact h.start_count
        · exact h.firstIter_count
        · intro i hi
          rw [countKey_cons, h.end_count i hi]
          by_cases hio : i = s.currentPipelineStepIndex
          · subst hio
            simp [hname, hnh, List.mem_cons]
          · have hne2 : solverName ≠ pipelineDef[i] := by
              rw [← hname]
              exact pipelineDef_getElem_ne _ _ hlen hi (fun hh => hio hh.symm)
            simp [hne2, List.mem_cons, hio]
        · intro i hi
          rw [countKey_cons, h.spent_count i hi]
          by_cases hio : i = s.currentPipelineStepIndex
          · subst hio
            simp [hname, hconsmem, hnh, List.mem_cons]
          · have hne2 : solverName ≠ pipelineDef[i] := by
              rw [← hname]
              exact pipelineDef_getElem_ne _ _ hlen hi (fun hh => hio hh.symm)
            simp [hne2, List.mem_cons, hio]
        · intro i hi hmem
          rcases List.mem_cons.mp hmem with rfl | hmem2
          · have hpos : 0 < countKey s.startTimeOfPhase
                pipelineDef[s.currentPipelineStepIndex] := by
              rw [h.start_count _ hlen]
              simp [hconsmem]
            obtain ⟨ts, hts⟩ :=
              recordGet_isSome_of_countKey_pos s.startTimeOfPhase _ hpos
            refine ⟨now, ts, ?_, hts, ?_⟩
            · rw [hname, recordGet_cons_self]
            · rw [hname] at hts ⊢
              rw [recordGet_cons_self, hts]
              rfl
          · have hne2 : solverName ≠ pipelineDef[i] := by
              rw [← hname]
              refine pipelineDef_getElem_ne _ _ hlen hi ?_
              intro hii
              rw [h.hooks_mem] at hmem2
              omega
            obtain ⟨te, ts, he, hst, hts⟩ := h.elapsed i hi hmem2
            refine ⟨te, ts, ?_, hst, ?_⟩
            · rw [recordGet_cons_ne _ _ _ _ hne2]; exact he
            · rw [recordGet_cons_ne _ _ _ _ hne2]; exact hts
      · have h1f : sub.step.solved = false := by simpa using h1
        by_cases h2 : sub.step.failed = true
        · rw [step_eq_subFailed env now s sub solverName hn ha hs hf hlim h1f h2]
          refine ⟨h.hooks_mem, h.cons_le, ?_, ?_, h.start_count,
            h.firstIter_count, h.end_count, h.spent_count, h.elapsed⟩
          · intro habs
            simp at habs
          · intro _ hff
            exact absurd hff (by simp)
        · have h2f : sub.step.failed = false := by simpa using h2
          rw [step_eq_run env now s sub solverName hn ha hs hf hlim h1f h2f]
          refine ⟨h.hooks_mem, h.cons_le, ?_, ?_, h.start_count,
            h.firstIter_count, h.end_count, h.spent_count, h.elapsed⟩
          · intro _
            exact h.active_cons (by rw [ha]; rfl)
          · intro habs
            simp at habs

theorem pipelineInv_stepN (env : Nat → SubBehavior) (nows : Nat → Int) (n : Nat) :
    PipelineInv (mkSolver.stepN env nows n) := by
  induction n with
  | zero => exact pipelineInv_mk
  | succ n ih => exact pipelineInv_step env (nows n) _ ih

/-! ### Claim C3: completion handling and phase ordering -/

/-- C3: when a `step()` call observes the active sub-solver become `solved`,
that same call records the phase's end time, writes its elapsed time as
`endTime - startTime`, runs the completion hook, clears the active
sub-solver and increments the phase index (the result is exactly that
structure update); no `step()` call constructs a solver while the sub-solver
slot is occupied; and in every reachable state, phase `N+1`'s solver has
been constructed only if phase `N`'s completion hook has already run. -/
theorem claim_C3 :
    (∀ (env : Nat → SubBehavior) (now : Int) (s : LayoutPipelineSolver)
      (sub : SubSolver) (solverName : String),
      pipelineDef[s.currentPipelineStepIndex]? = some solverName →
      s.activeSubSolver = some sub →
      s.solved = false → s.failed = false →
      s.iterations < MAX_ITERATIONS →
      sub.step.solved = true →
      s.step env now = { s with
        iterations := s.iterations + 1,
        endTimeOfPhase := (solverName, now) :: s.endTimeOfPhase,
        timeSpentOnPhase := (solverName,
          now - (recordGet s.startTimeOfPhase solverName).getD 0) ::
            s.timeSpentOnPhase,
        hooksRun := s.currentPipelineStepIndex :: s.hooksRun,
        activeSubSolver := none,
        currentPipelineStepIndex := s.currentPipelineStepIndex + 1 }) ∧
    (∀ (env : Nat → SubBehavior) (now : Int) (s : LayoutPipelineSolver),
      s.activeSubSolver.isSome = true →
      (s.step env now).constructedPhases = s.constructedPhases) ∧
    (∀ (env : Nat → SubBehavior) (nows : Nat → Int) (n i : Nat),
      i + 1 ∈ (mkSolver.stepN env nows n).constructedPhases →
      i ∈ (mkSolver.stepN env nows n).hooksRun) := by
  refine ⟨?_, ?_, ?_⟩
  · intro env now s sub solverName hn ha hs hf hit hsub
    exact step_eq_complete env now s sub solverName hn ha hs hf (by omega) hsub
  · intro env now s hsome
    by_cases hs : s.solved = true
    · rw [step_of_solved env now s hs]
    by_cases hf : s.failed = true
    · rw [step_of_failed env now s hf]
    have hs2 : s.solved = false := by simpa using hs
    have hf2 : s.failed = false := by simpa using hf
    obtain ⟨sub, ha⟩ := Option.isSome_iff_exists.mp hsome
    by_cases hlim : MAX_ITERATIONS < s.iterations + 1
    · rw [step_eq_limitFailure env now s hs2 hf2 hlim]
    cases hn : pipelineDef[s.currentPipelineStepIndex]? with
    | none => rw [step_eq_terminal env now s hs2 hf2 hlim hn]
    | some solverName =>
      by_cases h1 : sub.step.solved = true
      · rw [step_eq_complete env now s sub solverName hn ha hs2 hf2 hlim h1]
      · have h1f : sub.step.solved = false := by simpa using h1
        by_cases h2 : sub.step.failed = true
        · rw [step_eq_subFailed env now s sub solverName hn ha hs2 hf2 hlim h1f h2]
        · have h2f : sub.step.failed = false := by simpa using h2
          rw [step_eq_run env now s sub solverName hn ha hs2 hf2 hlim h1f h2f]
  · intro env nows n i hmem
    have hinv := pipelineInv_stepN env nows n
    have hle := (hinv.cons_le _ hmem).1
    rw [hinv.hooks_mem]
    omega

/-- A state ready to observe the first phase's sub-solver become solved on
the next `step()`. -/
def subSolving : SubSolver := { behavior := .solvesAfter 1, stepsTaken := 0 }

def sBeforeComplete : LayoutPipelineSolver :=
  { currentPipelineStepIndex := 0, activeSubSolver := some subSolving,
    iterations := 1,
    timeSpentOnPhase := [("identifyDecouplingCapsSolver", 0)],
    startTimeOfPhase := [("identifyDecouplingCapsSolver", 0)],
    firstIterationOfPhase := [("identifyDecouplingCapsSolver", 1)],
    constructedPhases := [0] }

theorem claim_C3_witness :
    sBeforeComplete.step envSolve 7 = { sBeforeComplete with
        iterations := sBeforeComplete.iterations + 1,
        endTimeOfPhase := ("identifyDecouplingCapsSolver", 7) ::
          sBeforeComplete.endTimeOfPhase,
        timeSpentOnPhase := ("identifyDecouplingCapsSolver",
          7 - (recordGet sBeforeComplete.startTimeOfPhase
            "identifyDecouplingCapsSolver").getD 0) ::
              sBeforeComplete.timeSpentOnPhase,
        hooksRun := sBeforeComplete.currentPipelineStepIndex ::
          sBeforeComplete.hooksRun,
        activeSubSolver := none,
        currentPipelineStepIndex :=
          sBeforeComplete.currentPipelineStepIndex + 1 } ∧
    (sBeforeComplete.step envSolve 7).constructedPhases =
      sBeforeComplete.constructedPhases ∧
    0 ∈ (mkSolver.stepN envSolve nows0 3).hooksRun :=
  ⟨claim_C3.1 envSolve 7 sBeforeComplete subSolving
      "identifyDecouplingCapsSolver" rfl rfl rfl rfl (by decide) (by decide),
    claim_C3.2.1 envSolve 7 sBeforeComplete rfl,
    claim_C3.2.2 envSolve nows0 3 0 (by decide)⟩

/-! ### Claim C8: phase-record timing fields -/

/-- Counterexample to C8: after the two steps in which phase 0 is
constructed and then completes, the `timeSpentOnPhase` record of the
completed phase has received two writes (`0` at construction, and
`endTime - startTime` at completion), so the elapsed-time field is not
written exactly once. -/
theorem claim_C8_counterexample :
    0 ∈ (mkSolver.stepN envSolve nows0 2).hooksRun ∧
    countKey (mkSolver.stepN envSolve nows0 2).timeSpentOnPhase
      "identifyDecouplingCapsSolver" = 2 := by decide

/-- C8 (amended): in every reachable state, for every phase: `startTime` and
`firstIterationIndex` are written exactly once, at construction;
`endTime` is written exactly once, at completion; `elapsedTime`
(`timeSpentOnPhase`) is written twice for a completed phase — initialised to
`0` at construction and overwritten at completion — and for every completed
phase the latest `elapsedTime` equals `endTime - startTime`. -/
theorem claim_C8 :
    ∀ (env : Nat → SubBehavior) (nows : Nat → Int) (n i : Nat)
      (hi : i < pipelineDef.length),
      countKey (mkSolver.stepN env nows n).startTimeOfPhase pipelineDef[i] =
        (if i ∈ (mkSolver.stepN env nows n).constructedPhases then 1 else 0) ∧
      countKey (mkSolver.stepN env nows n).firstIterationOfPhase pipelineDef[i] =
        (if i ∈ (mkSolver.stepN env nows n).constructedPhases then 1 else 0) ∧
      countKey (mkSolver.stepN env nows n).endTimeOfPhase pipelineDef[i] =
        (if i ∈ (mkSolver.stepN env nows n).hooksRun then 1 else 0) ∧
      countKey (mkSolver.stepN env nows n).timeSpentOnPhase pipelineDef[i] =
        ((if i ∈ (mkSolver.stepN env nows n).constructedPhases then 1 else 0) +
          (if i ∈ (mkSolver.stepN env nows n).hooksRun then 1 else 0)) ∧
      (i ∈ (mkSolver.stepN env nows n).hooksRun →
        ∃ te ts,
          recordGet (mkSolver.stepN env nows n).endTimeOfPhase
            pipelineDef[i] = some te ∧
          recordGet (mkSolver.stepN env nows n).startTimeOfPhase
            pipelineDef[i] = some ts ∧
          recordGet (mkSolver.stepN env nows n).timeSpentOnPhase
            pipelineDef[i] = some (te - ts)) := by
  intro env nows n i hi
  have hinv := pipelineInv_stepN env nows n
  exact ⟨hinv.start_count i hi, hinv.firstIter_count i hi, hinv.end_count i hi,
    hinv.spent_count i hi, hinv.elapsed i hi⟩

theorem claim_C8_witness :
    countKey (mkSolver.stepN envSolve nows0 2).startTimeOfPhase pipelineDef[0] =
      (if 0 ∈ (mkSolver.stepN envSolve nows0 2).constructedPhases then 1 else 0) ∧
    countKey (mkSolver.stepN envSolve nows0 2).firstIterationOfPhase pipelineDef[0] =
      (if 0 ∈ (mkSolver.stepN envSolve nows0 2).constructedPhases then 1 else 0) ∧
    countKey (mkSolver.stepN envSolve nows0 2).endTimeOfPhase pipelineDef[0] =
      (if 0 ∈ (mkSolver.stepN envSolve nows0 2).hooksRun then 1 else 0) ∧
    countKey (mkSolver.stepN envSolve nows0 2).timeSpentOnPhase pipelineDef[0] =
      ((if 0 ∈ (mkSolver.stepN envSolve nows0 2).constructedPhases then 1 else 0) +
        (if 0 ∈ (mkSolver.stepN envSolve nows0 2).hooksRun then 1 else 0)) ∧
    (0 ∈ (mkSolver.stepN envSolve nows0 2).hooksRun →
      ∃ te ts,
        recordGet (mkSolver.stepN envSolve nows0 2).endTimeOfPhase
          pipelineDef[0] = some te ∧
        recordGet (mkSolver.stepN envSolve nows0 2).startTimeOfPhase
          pipelineDef[0] = some ts ∧
        recordGet (mkSolver.stepN envSolve nows0 2).timeSpentOnPhase
          pipelineDef[0] = some (te - ts)) :=
  claim_C8 envSolve nows0 2 0 (by decide)

/-! ### Visualization compositor -/

/-- A graphical primitive (point, rectangle, circle, line or text).  Its
geometric payload is opaque here (`payload`); `step` is the pipeline-step
tag the compositor writes (`rect.step = stepIndex`), absent by default. -/
structure VizPrim where
  payload : Nat
  step : Option Nat := none

/-- A `GraphicsObject`: the five primitive collections.  A collection the
source leaves undefined (and reads back through `?? []` / `|| []`) is
modelled as the empty list. -/
structure GraphicsObject where
  points : List VizPrim := []
  rects : List VizPrim := []
  lines : List VizPrim := []
  circles : List VizPrim := []
  texts : List VizPrim := []

/-- The tagging pass of `visualize()`: set `step := stepIndex` on every
primitive of a visualization (the source mutates the primitives in
place inside the `map` callback). -/
def setStepTag (stepIndex : Nat) (g : GraphicsObject) : GraphicsObject :=
  { points := g.points.map fun p => { p with step := some stepIndex },
    rects := g.rects.map fun p => { p with step := some stepIndex },
    lines := g.lines.map fun p => { p with step := some stepIndex },
    circles := g.circles.map fun p => { p with step := some stepIndex },
    texts := g.texts.map fun p => { p with step := some stepIndex } }

/-- The multi-phase fallback of `visualize()` (reached when there is no
active sub-solver delegation and no authoritative final view).  `inputViz`
is the always-present background visualization of the raw input problem; the
four optional arguments are the phase solvers' visualizations, present
exactly when the phase's solver has been constructed.  Mirrors
`[inputViz, v1, v2, v3, v4].filter(Boolean)` followed by the positional
tagging `map`, the single-visualization early return, and the five-field
merge. -/
def visualizeMulti (inputViz : GraphicsObject)
    (identifyDecouplingCapsViz chipPartitionsViz packInnerPartitionsViz
      partitionPackingViz : Option GraphicsObject) : GraphicsObject :=
  let visualizations :=
    ([some inputViz, identifyDecouplingCapsViz, chipPartitionsViz,
        packInnerPartitionsViz, partitionPackingViz].filterMap id).enum.map
      (fun p => setStepTag p.1 p.2)
  match visualizations with
  | [v] => v
  | vs =>
    { points := vs.flatMap (fun v => v.points),
      rects := vs.flatMap (fun v => v.rects),
      lines := vs.flatMap (fun v => v.lines),
      circles := vs.flatMap (fun v => v.circles),
      texts := vs.flatMap (fun v => v.texts) }

def inputVizEx : GraphicsObject := { rects := [{ payload := 1 }] }

/-- Counterexample to C7: when exactly one visualization is available (only
the input background), the returned object is unmerged but NOT untagged: the
tagging `map` runs before the single-visualization early return, so its
primitives carry the step tag `0`. -/
theorem claim_C7_counterexample :
    (visualizeMulti inputVizEx none none none none).rects.map
      (fun p => p.step) = [some 0] := by decide

/-- C7 (amended): in the multi-phase fallback, each available visualization
is tagged with its position in the filtered list — the input-problem
background at position 0 and the phase visualizations following in pipeline
order, so with all four phase visualizations present, phase `i`'s primitives
are tagged `i + 1`; when exactly one visualization is available it is
returned unmerged, though still carrying step tag `0`. -/
theorem claim_C7 :
    ∀ (inputViz v1 v2 v3 v4 : GraphicsObject),
      visualizeMulti inputViz (some v1) (some v2) (some v3) (some v4) =
        { points := (setStepTag 0 inputViz).points ++ (setStepTag 1 v1).points ++
            (setStepTag 2 v2).points ++ (setStepTag 3 v3).points ++
            (setStepTag 4 v4).points,
          rects := (setStepTag 0 inputViz).rects ++ (setStepTag 1 v1).rects ++
            (setStepTag 2 v2).rects ++ (setStepTag 3 v3).rects ++
            (setStepTag 4 v4).rects,
          lines := (setStepTag 0 inputViz).lines ++ (setStepTag 1 v1).lines ++
            (setStepTag 2 v2).lines ++ (setStepTag 3 v3).lines ++
            (setStepTag 4 v4).lines,
          circles := (setStepTag 0 inputViz).circles ++ (setStepTag 1 v1).circles ++
            (setStepTag 2 v2).circles ++ (setStepTag 3 v3).circles ++
            (setStepTag 4 v4).circles,
          texts := (setStepTag 0 inputViz).texts ++ (setStepTag 1 v1).texts ++
            (setStepTag 2 v2).texts ++ (setStepTag 3 v3).texts ++
            (setStepTag 4 v4).texts } ∧
      visualizeMulti inputViz none none none none = setStepTag 0 inputViz := by
  intro inputViz v1 v2 v3 v4
  constructor
  · simp [visualizeMulti, List.enum, List.enumFrom, List.append_assoc]
  · rfl

/-! ### Layout validator: rotation-aware overlap detection

The source operates on JS numbers; they are modelled as real numbers, with
`Math.cos` / `Math.sin` as the real cosine and sine and `Math.PI` as `π`
(floating-point rounding is outside the model).  JS objects keyed by chip id
(`chipMap`, `chipPlacements`) are insertion-ordered association lists with
distinct keys. -/

structure Vec2 where
  x : ℝ
  y : ℝ

structure Chip where
  size : Vec2

/-- `InputProblem`, restricted to the field the validator reads. -/
structure InputProblem where
  chipMap : List (String × Chip)

structure Placement where
  x : ℝ
  y : ℝ
  ccwRotationDegrees : ℝ

/-- `OutputLayout`: chip id → placement. -/
structure OutputLayout where
  chipPlacements : List (String × Placement)

structure Bounds where
  minX : ℝ
  maxX : ℝ
  minY : ℝ
  maxY : ℝ

structure Overlap where
  chip1 : String
  chip2 : String
  overlapArea : ℝ

/-- `getRotatedBounds`: axis-aligned bounding box of a rotated chip. -/
noncomputable def getRotatedBounds (placement : Placement) (size : Vec2) :
    Bounds :=
  let halfWidth := size.x / 2
  let halfHeight := size.y / 2
  let angleRad := placement.ccwRotationDegrees * Real.pi / 180
  let cos := |Real.cos angleRad|
  let sin := |Real.sin angleRad|
  let rotatedWidth := halfWidth * cos + halfHeight * sin
  let rotatedHeight := halfWidth * sin + halfHeight * cos
  { minX := placement.x - rotatedWidth, maxX := placement.x + rotatedWidth,
    minY := placement.y - rotatedHeight, maxY := placement.y + rotatedHeight }

/-- `calculateOverlapArea`: intersection area of two AABBs. -/
noncomputable def calculateOverlapArea (bounds1 bounds2 : Bounds) : ℝ :=
  if bounds1.maxX ≤ bounds2.minX ∨ bounds1.minX ≥ bounds2.maxX ∨
      bounds1.maxY ≤ bounds2.minY ∨ bounds1.minY ≥ bounds2.maxY then 0
  else
    (min bounds1.maxX bounds2.maxX - max bounds1.minX bounds2.minX) *
      (min bounds1.maxY bounds2.maxY - max bounds1.minY bounds2.minY)

/-- The body of `checkForOverlaps` for one ordered pair of placements:
skip the pair if either chip id is missing from the chip map, otherwise
report it when the overlap area of the rotated bounds is strictly
positive. -/
noncomputable def checkPairForOverlap (inputProblem : InputProblem)
    (entry1 entry2 : String × Placement) : Option Overlap :=
  match recordGet inputProblem.chipMap entry1.1,
      recordGet inputProblem.chipMap entry2.1 with
  | some chip1, some chip2 =>
    let bounds1 := getRotatedBounds entry1.2 chip1.size
    let bounds2 := getRotatedBounds entry2.2 chip2.size
    let overlapArea := calculateOverlapArea bounds1 bounds2
    if overlapArea > 0 then
      some { chip1 := entry1.1, chip2 := entry2.1, overlapArea := overlapArea }
    else none
  | _, _ => none

/-- The double index loop of `checkForOverlaps`
(`for i; for j in i+1..`), as structural recursion over the placement list:
the outer element is paired with every later element, in order. -/
noncomputable def overlapScan (inputProblem : InputProblem) :
    List (String × Placement) → List Overlap
  | [] => []
  | entry :: rest =>
    rest.filterMap (checkPairForOverlap inputProblem entry) ++
      overlapScan inputProblem rest

/-- `checkForOverlaps(layout)`, reading `this.inputProblem.chipMap`. -/
noncomputable def checkForOverlaps (inputProblem : InputProblem)
    (layout : OutputLayout) : List Overlap :=
  overlapScan inputProblem layout.chipPlacements

/-! ### Claim C6: the rotated bounds formula and special angles -/

/-- C6: the rotated bound is centred at `(x, y)` with half-extents
`halfWidth·|cos θ| + halfHeight·|sin θ|` horizontally and
`halfWidth·|sin θ| + halfHeight·|cos θ|` vertically; at 0° and 180° the
half-extents equal the raw half-extents, and at 90° and 270° they swap. -/
theorem claim_C6 :
    ∀ (placement : Placement) (size : Vec2) (x y : ℝ),
      (getRotatedBounds placement size =
        { minX := placement.x - (size.x / 2 *
              |Real.cos (placement.ccwRotationDegrees * Real.pi / 180)| +
            size.y / 2 *
              |Real.sin (placement.ccwRotationDegrees * Real.pi / 180)|),
          maxX := placement.x + (size.x / 2 *
              |Real.cos (placement.ccwRotationDegrees * Real.pi / 180)| +
            size.y / 2 *
              |Real.sin (placement.ccwRotationDegrees * Real.pi / 180)|),
          minY := placement.y - (size.x / 2 *
              |Real.sin (placement.ccwRotationDegrees * Real.pi / 180)| +
            size.y / 2 *
              |Real.cos (placement.ccwRotationDegrees * Real.pi / 180)|),
          maxY := placement.y + (size.x / 2 *
              |Real.sin (placement.ccwRotationDegrees * Real.pi / 180)| +
            size.y / 2 *
              |Real.cos (placement.ccwRotationDegrees * Real.pi / 180)|) }) ∧
      getRotatedBounds { x := x, y := y, ccwRotationDegrees := 0 } size =
        { minX := x - size.x / 2, maxX := x + size.x / 2,
          minY := y - size.y / 2, maxY := y + size.y / 2 } ∧
      getRotatedBounds { x := x, y := y, ccwRotationDegrees := 180 } size =
        { minX := x - size.x / 2, maxX := x + size.x / 2,
          minY := y - size.y / 2, maxY := y + size.y / 2 } ∧
      getRotatedBounds { x := x, y := y, ccwRotationDegrees := 90 } size =
        { minX := x - size.y / 2, maxX := x + size.y / 2,
          minY := y - size.x / 2, maxY := y + size.x / 2 } ∧
      getRotatedBounds { x := x, y := y, ccwRotationDegrees := 270 } size =
        { minX := x - size.y / 2, maxX := x + size.y / 2,
          minY := y - size.x / 2, maxY := y + size.x / 2 } := by
  intro placement size x y
  refine ⟨rfl, ?_, ?_, ?_, ?_⟩
  · have h0 : (0 : ℝ) * Real.pi / 180 = 0 := by ring
    simp [getRotatedBounds, h0, Real.cos_zero, Real.sin_zero]
  · have h180 : (180 : ℝ) * Real.pi / 180 = Real.pi := by ring
    simp [getRotatedBounds, h180, Real.cos_pi, Real.sin_pi, abs_neg, abs_one]
  · have h90 : (90 : ℝ) * Real.pi / 180 = Real.pi / 2 := by ring
    simp [getRotatedBounds, h90, Real.cos_pi_div_two, Real.sin_pi_div_two]
  · have h270 : (270 : ℝ) * Real.pi / 180 = Real.pi + Real.pi / 2 := by ring
    simp [getRotatedBounds, h270, Real.cos_add, Real.sin_add, Real.cos_pi,
      Real.sin_pi, Real.cos_pi_div_two, Real.sin_pi_div_two, abs_neg, abs_one]

/-! ### Well-formedness and area lemmas -/

theorem halfExtent_pos (a b u v : ℝ) (ha : 0 < a) (hb : 0 < b) (hu : 0 ≤ u)
    (hv : 0 ≤ v) (huv : u ≠ 0 ∨ v ≠ 0) : 0 < a / 2 * u + b / 2 * v := by
  rcases huv with h | h
  · have h1 : 0 < a / 2 * u := mul_pos (by linarith) (lt_of_le_of_ne hu (Ne.symm h))
    have h2 : 0 ≤ b / 2 * v := mul_nonneg (by linarith) hv
    linarith
  · have h1 : 0 ≤ a / 2 * u := mul_nonneg (by linarith) hu
    have h2 : 0 < b / 2 * v := mul_pos (by linarith) (lt_of_le_of_ne hv (Ne.symm h))
    linarith

theorem abs_cos_ne_zero_or_abs_sin_ne_zero (θ : ℝ) :
    |Real.cos θ| ≠ 0 ∨ |Real.sin θ| ≠ 0 := by
  by_contra hcon
  push_neg at hcon
  obtain ⟨h1, h2⟩ := hcon
  have hc := abs_eq_zero.mp h1
  have hsz := abs_eq_zero.mp h2
  have hp := Real.sin_sq_add_cos_sq θ
  rw [hc, hsz] at hp
  norm_num at hp

/-- For strictly positive chip sizes the rotated bound is strictly
well-formed on both axes. -/
theorem getRotatedBounds_wf (placement : Placement) (size : Vec2)
    (hx : 0 < size.x) (hy : 0 < size.y) :
    (getRotatedBounds placement size).minX <
      (getRotatedBounds placement size).maxX ∧
    (getRotatedBounds placement size).minY <
      (getRotatedBounds placement size).maxY := by
  have hw := halfExtent_pos size.x size.y
    |Real.cos (placement.ccwRotationDegrees * Real.pi / 180)|
    |Real.sin (placement.ccwRotationDegrees * Real.pi / 180)| hx hy
    (abs_nonneg _) (abs_nonneg _)
    (abs_cos_ne_zero_or_abs_sin_ne_zero _)
  have hh := halfExtent_pos size.x size.y
    |Real.sin (placement.ccwRotationDegrees * Real.pi / 180)|
    |Real.cos (placement.ccwRotationDegrees * Real.pi / 180)| hx hy
    (abs_nonneg _) (abs_nonneg _)
    (Or.symm (abs_cos_ne_zero_or_abs_sin_ne_zero _))
  constructor
  · show placement.x - _ < placement.x + _
    linarith
  · show placement.y - _ < placement.y + _
    linarith

/-- The spec's strict-boundary disjointness rule: two bounds are disjoint
iff one's max ≤ the other's min on the X axis, or likewise on Y. -/
def boundsDisjoint (bounds1 bounds2 : Bounds) : Prop :=
  bounds1.maxX ≤ bounds2.minX ∨ bounds2.maxX ≤ bounds1.minX ∨
    bounds1.maxY ≤ bounds2.minY ∨ bounds2.maxY ≤ bounds1.minY

/-- For strictly well-formed bounds, the computed overlap area is positive
exactly when the bounds are not disjoint under the strict-boundary rule, and
in that case it equals the product of the two overlap extents. -/
theorem calculateOverlapArea_spec (b1 b2 : Bounds)
    (h1 : b1.minX < b1.maxX) (h2 : b1.minY < b1.maxY)
    (h3 : b2.minX < b2.maxX) (h4 : b2.minY < b2.maxY) :
    (0 < calculateOverlapArea b1 b2 ↔ ¬ boundsDisjoint b1 b2) ∧
    (¬ boundsDisjoint b1 b2 →
      calculateOverlapArea b1 b2 =
        (min b1.maxX b2.maxX - max b1.minX b2.minX) *
          (min b1.maxY b2.maxY - max b1.minY b2.minY)) := by
  unfold calculateOverlapArea
  split_ifs with hcode
  · have hd : boundsDisjoint b1 b2 := hcode
    exact ⟨iff_of_false (lt_irrefl 0) (not_not_intro hd),
      fun hnd => absurd hd hnd⟩
  · have hd : ¬ boundsDisjoint b1 b2 := hcode
    have hd2 := hd
    unfold boundsDisjoint at hd2
    push_neg at hd2
    obtain ⟨g1, g2, g3, g4⟩ := hd2
    have hxext : 0 < min b1.maxX b2.maxX - max b1.minX b2.minX := by
      have hm : max b1.minX b2.minX < min b1.maxX b2.maxX :=
        max_lt (lt_min h1 g2) (lt_min g1 h3)
      linarith
    have hyext : 0 < min b1.maxY b2.maxY - max b1.minY b2.minY := by
      have hm : max b1.minY b2.minY < min b1.maxY b2.maxY :=
        max_lt (lt_min h2 g4) (lt_min g3 h4)
      linarith
    exact ⟨iff_of_true (mul_pos hxext hyext) hd, fun _ => rfl⟩

/-! ### Structure of the overlap report list -/

theorem checkPairForOverlap_some {inputProblem : InputProblem}
    {e1 e2 : String × Placement} {o : Overlap}
    (h : checkPairForOverlap inputProblem e1 e2 = some o) :
    o.chip1 = e1.1 ∧ o.chip2 = e2.1 ∧ 0 < o.overlapArea ∧
    (recordGet inputProblem.chipMap e1.1).isSome = true ∧
    (recordGet inputProblem.chipMap e2.1).isSome = true := by
  cases hc1 : recordGet inputProblem.chipMap e1.1 with
  | none => simp [checkPairForOverlap, hc1] at h
  | some chip1 =>
    cases hc2 : recordGet inputProblem.chipMap e2.1 with
    | none => simp [checkPairForOverlap, hc1, hc2] at h
    | some chip2 =>
      simp only [checkPairForOverlap, hc1, hc2] at h
      split_ifs at h with harea
      obtain rfl := Option.some.inj h
      exact ⟨rfl, rfl, harea, by simp [hc1], by simp [hc2]⟩

theorem overlapScan_mem {inputProblem : InputProblem}
    {ps : List (String × Placement)} {o : Overlap} :
    o ∈ overlapScan inputProblem ps ↔
      ∃ e1 e2, [e1, e2].Sublist ps ∧
        checkPairForOverlap inputProblem e1 e2 = some o := by
  induction ps with
  | nil =>
    constructor
    · intro hmem
      exact absurd hmem (by simp [overlapScan])
    · rintro ⟨e1, e2, hsub, _⟩
      have hn := List.sublist_nil.mp hsub
      simp at hn
  | cons entry rest ih =>
    constructor
    · intro hmem
      simp only [overlapScan, List.mem_append] at hmem
      rcases hmem with hmem | hmem
      · obtain ⟨e2, he2, hck⟩ := List.mem_filterMap.mp hmem
        exact ⟨entry, e2, (List.singleton_sublist.mpr he2).cons₂ entry, hck⟩
      · obtain ⟨e1, e2, hsub, hck⟩ := ih.mp hmem
        exact ⟨e1, e2, hsub.cons entry, hck⟩
    · rintro ⟨e1, e2, hsub, hck⟩
      simp only [overlapScan, List.mem_append]
      cases hsub with
      | cons _ h2 =>
        exact Or.inr (ih.mpr ⟨e1, e2, h2, hck⟩)
      | cons₂ _ h2 =>
        exact Or.inl (List.mem_filterMap.mpr
          ⟨e2, List.singleton_sublist.mp h2, hck⟩)

theorem overlapScan_keys {inputProblem : InputProblem}
    {ps : List (String × Placement)} {o : Overlap}
    (hmem : o ∈ overlapScan inputProblem ps)
    (hnd : (ps.map Prod.fst).Nodup) :
    o.chip1 ∈ ps.map Prod.fst ∧ o.chip2 ∈ ps.map Prod.fst ∧
      o.chip1 ≠ o.chip2 := by
  obtain ⟨e1, e2, hsub, hck⟩ := overlapScan_mem.mp hmem
  obtain ⟨hc1, hc2, _, _, _⟩ := checkPairForOverlap_some hck
  have hsubf : [e1.1, e2.1].Sublist (ps.map Prod.fst) := by
    have hm := hsub.map Prod.fst
    simpa using hm
  have hnd2 : [e1.1, e2.1].Nodup := hnd.sublist hsubf
  have hne : e1.1 ≠ e2.1 := by
    simp [List.nodup_cons] at hnd2
    exact hnd2
  refine ⟨?_, ?_, ?_⟩
  · rw [hc1]
    exact hsubf.subset (by simp)
  · rw [hc2]
    exact hsubf.subset (by simp)
  · rw [hc1, hc2]
    exact hne

/-- Two overlap reports name the same unordered chip pair (in either
order). -/
def sameChipPair (o1 o2 : Overlap) : Prop :=
  (o1.chip1 = o2.chip1 ∧ o1.chip2 = o2.chip2) ∨
    (o1.chip1 = o2.chip2 ∧ o1.chip2 = o2.chip1)

theorem overlapScan_pairwise (inputProblem : InputProblem)
    (ps : List (String × Placement))
    (hnd : (ps.map Prod.fst).Nodup) :
    List.Pairwise (fun o1 o2 => ¬ sameChipPair o1 o2)
      (overlapScan inputProblem ps) := by
  induction ps with
  | nil => simp [overlapScan]
  | cons entry rest ih =>
    obtain ⟨hhead, htail⟩ : entry.1 ∉ rest.map Prod.fst ∧
        (rest.map Prod.fst).Nodup := by
      simpa [List.nodup_cons] using hnd
    simp only [overlapScan]
    refine List.pairwise_append.mpr ⟨?_, ih htail, ?_⟩
    · have hpw : List.Pairwise
          (fun a b => (a : String × Placement).1 ≠ b.1) rest :=
        List.pairwise_map.mp htail
      have hpw2 : List.Pairwise (fun a b => a ∈ rest ∧ b ∈ rest ∧
          (a : String × Placement).1 ≠ b.1) rest :=
        List.Pairwise.and_mem.mp hpw
      refine List.Pairwise.filterMap (checkPairForOverlap inputProblem entry)
        ?_ hpw2
      intro a b hS o1 ho1 o2 ho2
      obtain ⟨hain, hbin, hab⟩ := hS
      obtain ⟨h11, h12, _, _, _⟩ :=
        checkPairForOverlap_some (Option.mem_def.mp ho1)
      obtain ⟨h21, h22, _, _, _⟩ :=
        checkPairForOverlap_some (Option.mem_def.mp ho2)
      intro hsame
      rcases hsame with ⟨_, hb⟩ | ⟨ha, _⟩
      · rw [h12, h22] at hb
        exact hab hb
      · rw [h11, h22] at ha
        refine hhead ?_
        rw [ha]
        exact List.mem_map_of_mem Prod.fst hbin
    · intro o1 ho1 o2 ho2
      obtain ⟨e2, he2, hck⟩ := List.mem_filterMap.mp ho1
      obtain ⟨hc11, hc12, _, _, _⟩ := checkPairForOverlap_some hck
      have hkeys := overlapScan_keys ho2 htail
      intro hsame
      rcases hsame with ⟨ha1, _⟩ | ⟨ha1, _⟩
      · rw [hc11] at ha1
        rw [ha1] at hhead
        exact hhead hkeys.1
      · rw [hc11] at ha1
        rw [ha1] at hhead
        exact hhead hkeys.2.1

/-! ### Concrete validator fixtures -/

def sizeSquare : Vec2 := { x := 2, y := 2 }

def sizeThin : Vec2 := { x := 0, y := 2 }

def chipA : Chip := { size := sizeSquare }

def chipThin : Chip := { size := sizeThin }

def placementA : Placement := { x := 0, y := 0, ccwRotationDegrees := 0 }

def placementB : Placement := { x := 1, y := 0, ccwRotationDegrees := 0 }

def placementFar : Placement := { x := 10, y := 0, ccwRotationDegrees := 0 }

noncomputable def placementT : Placement :=
  { x := 1 / 2, y := 0, ccwRotationDegrees := 0 }

def probW : InputProblem := { chipMap := [("A", chipA), ("B", chipA)] }

def layoutW : OutputLayout :=
  { chipPlacements := [("A", placementA), ("B", placementB)] }

def probDeg : InputProblem := { chipMap := [("A", chipA), ("T", chipThin)] }

noncomputable def layoutDeg : OutputLayout :=
  { chipPlacements := [("A", placementA), ("T", placementT)] }

/-! ### Claim C5: overlap reporting -/

/-- C5 (amended): for bounds produced by the validator from chips of
strictly positive width and height, a pair is reported (positive overlap
area) iff the bounds are not disjoint under the strict-boundary rule, and
the area then equals the product of the X- and Y-overlap extents; every
reported overlap has strictly positive area; with distinct chip ids, no
unordered chip pair is reported twice; and the report list consists exactly
of the ordered pairs (`chip1` before `chip2` in placement order) whose pair
check fires. -/
theorem claim_C5 :
    (∀ (p1 p2 : Placement) (s1 s2 : Vec2),
      0 < s1.x → 0 < s1.y → 0 < s2.x → 0 < s2.y →
      (0 < calculateOverlapArea (getRotatedBounds p1 s1)
          (getRotatedBounds p2 s2) ↔
        ¬ boundsDisjoint (getRotatedBounds p1 s1) (getRotatedBounds p2 s2)) ∧
      (¬ boundsDisjoint (getRotatedBounds p1 s1) (getRotatedBounds p2 s2) →
        calculateOverlapArea (getRotatedBounds p1 s1) (getRotatedBounds p2 s2) =
          (min (getRotatedBounds p1 s1).maxX (getRotatedBounds p2 s2).maxX -
            max (getRotatedBounds p1 s1).minX (getRotatedBounds p2 s2).minX) *
          (min (getRotatedBounds p1 s1).maxY (getRotatedBounds p2 s2).maxY -
            max (getRotatedBounds p1 s1).minY (getRotatedBounds p2 s2).minY))) ∧
    (∀ (inputProblem : InputProblem) (layout : OutputLayout) (o : Overlap),
      o ∈ checkForOverlaps inputProblem layout → 0 < o.overlapArea) ∧
    (∀ (inputProblem : InputProblem) (layout : OutputLayout),
      (layout.chipPlacements.map Prod.fst).Nodup →
      List.Pairwise (fun o1 o2 => ¬ sameChipPair o1 o2)
        (checkForOverlaps inputProblem layout)) ∧
    (∀ (inputProblem : InputProblem) (layout : OutputLayout) (o : Overlap),
      o ∈ checkForOverlaps inputProblem layout ↔
        ∃ e1 e2, [e1, e2].Sublist layout.chipPlacements ∧
          checkPairForOverlap inputProblem e1 e2 = some o) := by
  refine ⟨?_, ?_, ?_, ?_⟩
  · intro p1 p2 s1 s2 h1x h1y h2x h2y
    obtain ⟨hw1, hh1⟩ := getRotatedBounds_wf p1 s1 h1x h1y
    obtain ⟨hw2, hh2⟩ := getRotatedBounds_wf p2 s2 h2x h2y
    exact calculateOverlapArea_spec _ _ hw1 hh1 hw2 hh2
  · intro inputProblem layout o hmem
    obtain ⟨e1, e2, hsub, hck⟩ := overlapScan_mem.mp hmem
    exact (checkPairForOverlap_some hck).2.2.1
  · intro inputProblem layout hnd
    exact overlapScan_pairwise inputProblem layout.chipPlacements hnd
  · intro inputProblem layout o
    exact overlapScan_mem

/-- Counterexample to C5 as stated: for a degenerate (zero-width) chip the
validator produces a zero-width bound; against a square chip it can be
non-disjoint under the strict-boundary rule (all four strict inequalities
hold) and yet have overlap area 0, so the pair is not reported. -/
theorem claim_C5_counterexample :
    (getRotatedBounds placementT sizeThin).minX <
      (getRotatedBounds placementA sizeSquare).maxX ∧
    (getRotatedBounds placementA sizeSquare).minX <
      (getRotatedBounds placementT sizeThin).maxX ∧
    (getRotatedBounds placementT sizeThin).minY <
      (getRotatedBounds placementA sizeSquare).maxY ∧
    (getRotatedBounds placementA sizeSquare).minY <
      (getRotatedBounds placementT sizeThin).maxY ∧
    calculateOverlapArea (getRotatedBounds placementA sizeSquare)
      (getRotatedBounds placementT sizeThin) = 0 ∧
    checkForOverlaps probDeg layoutDeg = [] := by
  have h0 : (0 : ℝ) * Real.pi / 180 = 0 := by ring
  have hA : getRotatedBounds placementA sizeSquare =
      { minX := -1, maxX := 1, minY := -1, maxY := 1 } := by
    simp [getRotatedBounds, placementA, sizeSquare, h0, Real.cos_zero,
      Real.sin_zero]
  have hT : getRotatedBounds placementT sizeThin =
      { minX := 1 / 2, maxX := 1 / 2, minY := -1, maxY := 1 } := by
    simp [getRotatedBounds, placementT, sizeThin, h0, Real.cos_zero,
      Real.sin_zero]
  have harea : calculateOverlapArea (getRotatedBounds placementA sizeSquare)
      (getRotatedBounds placementT sizeThin) = 0 := by
    rw [hA, hT]
    simp only [calculateOverlapArea]
    norm_num [min_def, max_def]
  have harea2 : calculateOverlapArea (getRotatedBounds placementA chipA.size)
      (getRotatedBounds placementT chipThin.size) = 0 := harea
  have hck : checkPairForOverlap probDeg ("A", placementA)
      ("T", placementT) = none := by
    have hga : recordGet probDeg.chipMap "A" = some chipA := rfl
    have hgt : recordGet probDeg.chipMap "T" = some chipThin := rfl
    simp only [checkPairForOverlap, hga, hgt]
    have hnot : ¬ (calculateOverlapArea (getRotatedBounds placementA chipA.size)
        (getRotatedBounds placementT chipThin.size) > 0) := by
      rw [harea2]
      exact lt_irrefl 0
    rw [if_neg hnot]
  refine ⟨?_, ?_, ?_, ?_, harea, ?_⟩
  · rw [hA, hT]; norm_num
  · rw [hA, hT]; norm_num
  · rw [hA, hT]; norm_num
  · rw [hA, hT]; norm_num
  · simp [checkForOverlaps, overlapScan, layoutDeg, hck]

theorem claim_C5_witness :
    ((0 < calculateOverlapArea (getRotatedBounds placementA sizeSquare)
          (getRotatedBounds placementB sizeSquare) ↔
        ¬ boundsDisjoint (getRotatedBounds placementA sizeSquare)
          (getRotatedBounds placementB sizeSquare)) ∧
      (¬ boundsDisjoint (getRotatedBounds placementA sizeSquare)
          (getRotatedBounds placementB sizeSquare) →
        calculateOverlapArea (getRotatedBounds placementA sizeSquare)
            (getRotatedBounds placementB sizeSquare) =
          (min (getRotatedBounds placementA sizeSquare).maxX
              (getRotatedBounds placementB sizeSquare).maxX -
            max (getRotatedBounds placementA sizeSquare).minX
              (getRotatedBounds placementB sizeSquare).minX) *
          (min (getRotatedBounds placementA sizeSquare).maxY
              (getRotatedBounds placementB sizeSquare).maxY -
            max (getRotatedBounds placementA sizeSquare).minY
              (getRotatedBounds placementB sizeSquare).minY))) ∧
    List.Pairwise (fun o1 o2 => ¬ sameChipPair o1 o2)
      (checkForOverlaps probW layoutW) :=
  ⟨claim_C5.1 placementA placementB sizeSquare sizeSquare two_pos two_pos
      two_pos two_pos,
    claim_C5.2.2.1 probW layoutW (by decide)⟩

/-! ### Claim C10: placements missing from the chip map are skipped -/

/-- C10: a chip placement whose id has no entry in the input problem's chip
map is silently skipped: `checkForOverlaps` is total (no error), and no
reported pair involves that chip id. -/
theorem claim_C10 :
    ∀ (inputProblem : InputProblem) (layout : OutputLayout) (c : String),
      recordGet inputProblem.chipMap c = none →
      ∀ o ∈ checkForOverlaps inputProblem layout,
        o.chip1 ≠ c ∧ o.chip2 ≠ c := by
  intro inputProblem layout c hc o hmem
  obtain ⟨e1, e2, hsub, hck⟩ := overlapScan_mem.mp hmem
  obtain ⟨h1, h2, _, hs1, hs2⟩ := checkPairForOverlap_some hck
  constructor
  · intro heq
    have he : e1.1 = c := by rw [← h1, heq]
    rw [he, hc] at hs1
    simp at hs1
  · intro heq
    have he : e2.1 = c := by rw [← h2, heq]
    rw [he, hc] at hs2
    simp at hs2

def layoutC : OutputLayout :=
  { chipPlacements :=
      [("A", placementA), ("B", placementFar), ("C", placementA)] }

theorem claim_C10_witness :
    recordGet probW.chipMap "C" = none ∧
    0 < calculateOverlapArea (getRotatedBounds placementA chipA.size)
      (getRotatedBounds placementA chipA.size) ∧
    ∀ o ∈ checkForOverlaps probW layoutC, o.chip1 ≠ "C" ∧ o.chip2 ≠ "C" := by
  refine ⟨rfl, ?_, claim_C10 probW layoutC "C" rfl⟩
  have h0 : (0 : ℝ) * Real.pi / 180 = 0 := by ring
  have hA : getRotatedBounds placementA chipA.size =
      { minX := -1, maxX := 1, minY := -1, maxY := 1 } := by
    simp [getRotatedBounds, placementA, chipA, sizeSquare, h0, Real.cos_zero,
      Real.sin_zero]
  rw [hA]
  simp only [calculateOverlapArea]
  norm_num [min_def, max_def]

/-! ### Claim C4: `getOutputLayout` -/

/-- The fields of the terminal phase's solver that `getOutputLayout`
reads. -/
structure TerminalSolverView where
  solved : Bool
  finalLayout : Option OutputLayout

/-- The orchestrator fields `getOutputLayout` reads: the solved flag, the
(optional) terminal-phase solver reference, and the input problem used by
the overlap check. -/
structure PipelineResultView where
  inputProblem : InputProblem
  solved : Bool
  partitionPackingSolver : Option TerminalSolverView

/-- `getOutputLayout`, with thrown errors as `Except.error` carrying the
source's message, and the overlap report that the source passes to
`console.warn` returned alongside the layout (the layout itself is returned
unchanged whatever the report contains). -/
noncomputable def getOutputLayout (self : PipelineResultView) :
    Except String (OutputLayout × List Overlap) :=
  if !self.solved then
    .error "Pipeline execution incomplete. Ensure solve() is called."
  else
    match self.partitionPackingSolver with
    | none => .error "Final layout extraction failed. Pipeline state is invalid."
    | some pps =>
      if !pps.solved then
        .error "Final layout extraction failed. Pipeline state is invalid."
      else
        match pps.finalLayout with
        | none =>
          .error "Final layout extraction failed. Pipeline state is invalid."
        | some finalLayout =>
          .ok (finalLayout, checkForOverlaps self.inputProblem finalLayout)

/-- C4: `getOutputLayout` fails with the incompleteness error whenever the
orchestrator is not solved; fails with the invalid-final-layout error
whenever the terminal phase's solver is missing, unsolved, or has produced
no final layout; and otherwise runs the overlap check (whose result is only
reported, never acted upon) and returns the final layout unchanged. -/
theorem claim_C4 :
    ∀ v : PipelineResultView,
      (v.solved = false →
        getOutputLayout v = Except.error
          "Pipeline execution incomplete. Ensure solve() is called.") ∧
      (v.solved = true →
        (v.partitionPackingSolver = none ∨
          (∃ pps, v.partitionPackingSolver = some pps ∧
            (pps.solved = false ∨ pps.finalLayout = none))) →
        getOutputLayout v = Except.error
          "Final layout extraction failed. Pipeline state is invalid.") ∧
      (∀ pps finalLayout, v.solved = true →
        v.partitionPackingSolver = some pps → pps.solved = true →
        pps.finalLayout = some finalLayout →
        getOutputLayout v = Except.ok
          (finalLayout, checkForOverlaps v.inputProblem finalLayout)) := by
  intro v
  refine ⟨?_, ?_, ?_⟩
  · intro hs
    simp [getOutputLayout, hs]
  · intro hs hbad
    rcases hbad with hnone | ⟨pps, hsome, hbad2⟩
    · simp [getOutputLayout, hs, hnone]
    · rcases hbad2 with hps | hlay
      · simp [getOutputLayout, hs, hsome, hps]
      · cases hpps : pps.solved with
        | false => simp [getOutputLayout, hs, hsome, hpps]
        | true => simp [getOutputLayout, hs, hsome, hpps, hlay]
  · intro pps finalLayout hs hsome hpps hlay
    simp [getOutputLayout, hs, hsome, hpps, hlay]

noncomputable def ppsSolved : TerminalSolverView :=
  { solved := true, finalLayout := some layoutW }

noncomputable def viewIncomplete : PipelineResultView :=
  { inputProblem := probW, solved := false,
    partitionPackingSolver := some ppsSolved }

noncomputable def viewInvalid : PipelineResultView :=
  { inputProblem := probW, solved := true, partitionPackingSolver := none }

noncomputable def viewOk : PipelineResultView :=
  { inputProblem := probW, solved := true,
    partitionPackingSolver := some ppsSolved }

theorem claim_C4_witness :
    getOutputLayout viewIncomplete = Except.error
      "Pipeline execution incomplete. Ensure solve() is called." ∧
    getOutputLayout viewInvalid = Except.error
      "Final layout extraction failed. Pipeline state is invalid." ∧
    getOutputLayout viewOk = Except.ok
      (layoutW, checkForOverlaps probW layoutW) :=
  ⟨(claim_C4 viewIncomplete).1 rfl,
    (claim_C4 viewInvalid).2.1 rfl (Or.inl rfl),
    (claim_C4 viewOk).2.2 ppsSolved layoutW rfl rfl rfl rfl⟩
